import Mathlib

/-!
Verification of the chemlink-analytics-db ETL pipeline.

Shallow embedding of `src/scripts/extract.py`, `src/scripts/transform.py` and
`src/scripts/aggregate.py` as executable Lean definitions, plus theorems
settling the frozen claims about them.

Modelling conventions:
* database rows are Lean structures, tables are `List`s of rows;
* SQL `WHERE` clauses become `List.filter`, scalar subqueries become folds;
* timestamps are integers counted in whole days, so PostgreSQL's
  `EXTRACT(DAY FROM (a - b))` becomes plain integer subtraction `a - b`;
* a table's `ORDER BY` is irrelevant to every property proved here (all are
  membership / count / per-row facts), so row order is left as in the input;
* database faults (a failing `TRUNCATE`, a failing `executemany`) are injected
  through explicit parameters, since the Python code observes them only as
  exceptions.
-/

set_option maxRecDepth 8000

namespace ChemlinkAnalytics

/-! ### Staging loader: `extract.py`, `load_to_staging` (lines 59-132)

The loader receives the destination table's current contents `dest` and the
extracted `rows`.  It returns 0 untouched on an empty row set, otherwise
truncates (commit), splits the rows into batches exactly as the Python
`range(0, len(rows), batch_size)` loop does, and inserts batch by batch,
committing after each batch.  `truncFail` injects a truncate error (warning
path, lines 75-79); `insertFailAt = some k` makes the `executemany` of the
batch with 0-based index `k` raise (error path, lines 124-132). -/

/-- One entry of the global `stats['errors']` list: the Python dicts
`{'table': ..., 'error': ...}` (truncate path, no traceback) and
`{'table': ..., 'error': ..., 'traceback': ...}` (insert path). -/
structure ErrorRec where
  table : String
  errmsg : String
  hasTraceback : Bool
deriving DecidableEq, Repr

/-- `batch_size = 500 if len(rows) > 1000 else 200` (extract.py line 90). -/
def batchSize (n : Nat) : Nat := if n > 1000 then 500 else 200

/-- `num_batches = (len(rows) + batch_size - 1) // batch_size` (line 95). -/
def numBatches (n bs : Nat) : Nat := (n + bs - 1) / bs

/-- The batches visited by `for i in range(0, len(rows), batch_size):
batch = rows[i:i + batch_size]` (lines 99-101). -/
def batchesOf (bs : Nat) (rows : List α) : List (List α) :=
  (List.range (numBatches rows.length bs)).map fun k => (rows.drop (k * bs)).take bs

/-- The insert loop (lines 99-116).  State: committed destination contents,
remaining batches, current batch index, injected failing index, running
`total_inserted`.  Returns (committed contents, `total_inserted` at exit,
whether an insert raised).  A batch is appended to the destination only by
its own commit; the failing batch's rows are rolled back, i.e. never appended. -/
def insertBatches : List α → List (List α) → Nat → Option Nat → Nat →
    List α × Nat × Bool
  | dest, [], _, _, ins => (dest, ins, false)
  | dest, b :: rest, idx, failAt, ins =>
    if failAt = some idx then (dest, ins, true)
    else insertBatches (dest ++ b) rest (idx + 1) failAt (ins + b.length)

/-- Result of one `load_to_staging` call: its return value, the destination
table contents after the call, the error records it appended to
`stats['errors']`, and how many `rollback()`s it issued. -/
structure LoadOutcome (α : Type) where
  ret : Nat
  dest : List α
  newErrors : List ErrorRec
  rollbacks : Nat
deriving DecidableEq, Repr

/-- `load_to_staging(analytics_conn, schema, table_name, columns, rows)`
(extract.py lines 59-132).  `truncMsg` / `insMsg` stand for the stringified
exceptions. -/
def load_to_staging (schema tbl truncMsg insMsg : String) (truncFail : Bool)
    (insertFailAt : Option Nat) (dest rows : List α) : LoadOutcome α :=
  if rows.isEmpty then ⟨0, dest, [], 0⟩
  else
    let key := schema ++ "." ++ tbl
    let dest1 := if truncFail then dest else []
    let errs1 := if truncFail then [⟨key, truncMsg, false⟩] else []
    let rb1 := if truncFail then 1 else 0
    let bs := batchSize rows.length
    let r := insertBatches dest1 (batchesOf bs rows) 0 insertFailAt 0
    if r.2.2 then ⟨0, r.1, errs1 ++ [⟨key, insMsg, true⟩], rb1 + 1⟩
    else ⟨r.2.1, r.1, errs1, rb1⟩

/-! Basic facts about the batching and the insert loop. -/

theorem flatten_range_batches (bs : Nat) (rows : List α) :
    ∀ k, ((List.range k).map fun j => (rows.drop (j * bs)).take bs).flatten
      = rows.take (k * bs) := by
  intro k
  induction k with
  | zero => simp
  | succ n ih =>
    rw [List.range_succ, List.map_append, List.flatten_append, ih]
    simp [Nat.succ_mul, List.take_add]

theorem insertBatches_none (batches : List (List α)) :
    ∀ dest idx ins, insertBatches dest batches idx none ins
      = (dest ++ batches.flatten, ins + batches.flatten.length, false) := by
  induction batches with
  | nil => intro dest idx ins; simp [insertBatches]
  | cons b rest ih =>
    intro dest idx ins
    simp only [insertBatches, reduceCtorEq, if_false, ih, List.flatten_cons,
      List.append_assoc, List.length_append, Prod.mk.injEq, true_and, and_true]
    omega

theorem insertBatches_fail (batches : List (List α)) :
    ∀ dest idx ins k, idx ≤ k →
      insertBatches dest batches idx (some k) ins
      = if k - idx < batches.length then
          (dest ++ ((batches.take (k - idx)).flatten),
           ins + ((batches.take (k - idx)).flatten).length, true)
        else (dest ++ batches.flatten, ins + batches.flatten.length, false) := by
  induction batches with
  | nil => intro dest idx ins k _; simp [insertBatches]
  | cons b rest ih =>
    intro dest idx ins k hik
    by_cases hk : k = idx
    · subst hk
      simp [insertBatches]
    · have hlt : idx < k := lt_of_le_of_ne hik (fun h => hk h.symm)
      have hne : (some k : Option Nat) ≠ some idx := by
        simp; omega
      rw [insertBatches, if_neg hne, ih (dest ++ b) (idx + 1) (ins + b.length) k (by omega)]
      have hsub : k - idx = (k - (idx + 1)) + 1 := by omega
      rw [hsub]
      by_cases hin : k - (idx + 1) < rest.length
      · rw [if_pos hin, if_pos (by simp; omega)]
        simp [List.take_cons, List.append_assoc]
        omega
      · rw [if_neg hin, if_neg (by simp; omega)]
        simp [List.append_assoc]
        omega

theorem batchSize_pos (n : Nat) : 0 < batchSize n := by
  unfold batchSize; split <;> norm_num

theorem le_numBatches_mul (n bs : Nat) (hbs : 0 < bs) : n ≤ numBatches n bs * bs := by
  unfold numBatches
  by_contra hlt
  push_neg at hlt
  have h1 : ((n + bs - 1) / bs + 1) * bs ≤ n + bs - 1 := by
    rw [Nat.succ_mul]; omega
  have h2 := (Nat.le_div_iff_mul_le hbs).mpr h1
  omega

theorem take_batchesOf (bs k : Nat) (rows : List α) :
    ((batchesOf bs rows).take k).flatten
      = rows.take (min k (numBatches rows.length bs) * bs) := by
  rw [batchesOf, ← List.map_take, List.take_range, flatten_range_batches]

theorem length_batchesOf (bs : Nat) (rows : List α) :
    (batchesOf bs rows).length = numBatches rows.length bs := by
  simp [batchesOf]

/-- A clean (fault-free) load truncates and then commits every batch: the
destination ends up holding exactly the extracted rows and the returned count
is the full row count. -/
theorem load_to_staging_clean (sch tbl tm im : String) (dest : List α)
    (rows : List α) (hne : rows ≠ []) :
    load_to_staging sch tbl tm im false none dest rows
      = ⟨rows.length, rows, [], 0⟩ := by
  have hbs := batchSize_pos rows.length
  have hcover := le_numBatches_mul rows.length (batchSize rows.length) hbs
  unfold load_to_staging
  rw [if_neg (by simpa [List.isEmpty_iff] using hne)]
  simp only [insertBatches_none, List.nil_append, Nat.zero_add, if_neg]
  have hfl : (batchesOf (batchSize rows.length) rows).flatten = rows := by
    have := take_batchesOf (batchSize rows.length)
      (numBatches rows.length (batchSize rows.length)) rows
    rw [List.take_of_length_le (le_of_eq (length_batchesOf _ _)), min_self] at this
    rw [this, List.take_of_length_le hcover]
  simp [hfl]

/-- An insert failure at batch `k < numBatches`: the destination keeps exactly
the rows of the `k` completed batches (a prefix of the extracted rows), one
structured error record is appended, exactly one rollback is issued, and the
function returns 0. -/
theorem load_to_staging_fail (sch tbl tm im : String) (dest : List α)
    (rows : List α) (k : Nat) (hne : rows ≠ [])
    (hk : k < numBatches rows.length (batchSize rows.length)) :
    load_to_staging sch tbl tm im false (some k) dest rows
      = ⟨0, rows.take (k * batchSize rows.length),
          [⟨sch ++ "." ++ tbl, im, true⟩], 1⟩ := by
  have hne' : rows.isEmpty = false := by simpa [List.isEmpty_iff] using hne
  have hlen : k - 0 < (batchesOf (batchSize rows.length) rows).length := by
    rw [length_batchesOf]; omega
  have htb := take_batchesOf (batchSize rows.length) k rows
  rw [min_eq_left (le_of_lt hk)] at htb
  simp only [load_to_staging, hne', Bool.false_eq_true, if_false]
  rw [insertBatches_fail _ _ 0 0 k (Nat.zero_le k), if_pos hlen]
  simp [htb]

/-- An insert-failure index past the last batch never fires: the load behaves
exactly like a clean one. -/
theorem load_to_staging_fail_oob (sch tbl tm im : String) (dest : List α)
    (rows : List α) (k : Nat) (hne : rows ≠ [])
    (hk : numBatches rows.length (batchSize rows.length) ≤ k) :
    load_to_staging sch tbl tm im false (some k) dest rows
      = load_to_staging sch tbl tm im false none dest rows := by
  have hne' : rows.isEmpty = false := by simpa [List.isEmpty_iff] using hne
  have hlen : ¬ (k - 0 < (batchesOf (batchSize rows.length) rows).length) := by
    rw [length_batchesOf]; omega
  simp only [load_to_staging, hne', Bool.false_eq_true, if_false]
  rw [insertBatches_fail _ _ 0 0 k (Nat.zero_le k), if_neg hlen, insertBatches_none]

/-- C3 counterexample: the batch size the loader computes is 500 for 1001 rows
and 200 for 10 rows, i.e. it is larger, not smaller, for the larger row
count — refuting the claim that it is smaller when the row count is large. -/
theorem claim_C3_counterexample :
    batchSize 1001 = 500 ∧ batchSize 10 = 200 ∧ ¬ batchSize 1001 ≤ batchSize 10 := by
  decide

/-- C3 (amended): the Staging Loader's batch size is the larger value 500 when
the total row count exceeds 1000, and the smaller value 200 otherwise. -/
theorem claim_C3_batch_size (n : Nat) :
    (1000 < n → batchSize n = 500) ∧ (n ≤ 1000 → batchSize n = 200) := by
  refine ⟨fun h => ?_, fun h => ?_⟩ <;> simp [batchSize] <;> omega

/-- C3 witness: the amended rule evaluated at 1200 rows. -/
theorem claim_C3_witness : 1000 < 1200 ∧ batchSize 1200 = 500 :=
  ⟨by decide, (claim_C3_batch_size 1200).1 (by decide)⟩

/-- C4: a staging load of exactly 1200 rows uses batch size 500 and produces
3 batches of 500/500/200 rows, committed in order; a clean run leaves all 1200
rows; stopping after the second batch leaves exactly the first 1000 rows; and
whatever batch fails, the destination holds exactly the concatenation of the
already-completed batches. -/
theorem claim_C4_load_1200 (rows : List α) (h : rows.length = 1200)
    (sch tbl tm im : String) (dest : List α) :
    batchSize rows.length = 500 ∧
    numBatches rows.length (batchSize rows.length) = 3 ∧
    (batchesOf 500 rows).map List.length = [500, 500, 200] ∧
    (load_to_staging sch tbl tm im false none dest rows).dest = rows ∧
    (load_to_staging sch tbl tm im false (some 2) dest rows).dest = rows.take 1000 ∧
    (rows.take 1000).length = 1000 ∧
    (∀ k, k < 3 → (load_to_staging sch tbl tm im false (some k) dest rows).dest
        = rows.take (k * 500)) ∧
    (∀ fa : Option Nat, ∃ j,
      (load_to_staging sch tbl tm im false fa dest rows).dest
        = ((batchesOf 500 rows).take j).flatten) := by
  have hne : rows ≠ [] := by intro he; rw [he] at h; simp at h
  have hbs : batchSize rows.length = 500 := by rw [h]; decide
  have hnb : numBatches rows.length (batchSize rows.length) = 3 := by
    rw [h]; decide
  have h3 : numBatches rows.length 500 = 3 := by rw [h]; decide
  have hmap : (batchesOf 500 rows).map List.length = [500, 500, 200] := by
    simp only [batchesOf, h3, List.map_map]
    simp [List.range_succ, Function.comp, List.length_take, List.length_drop, h]
  refine ⟨hbs, hnb, hmap, ?_, ?_, ?_, ?_, ?_⟩
  · rw [load_to_staging_clean sch tbl tm im dest rows hne]
  · rw [load_to_staging_fail sch tbl tm im dest rows 2 hne (by omega), hbs]
  · simp [List.length_take, h]
  · intro k hk
    rw [load_to_staging_fail sch tbl tm im dest rows k hne (by omega), hbs]
  · intro fa
    have hall : rows = ((batchesOf 500 rows).take 3).flatten := by
      have h1 := take_batchesOf 500 3 rows
      rw [h3, min_self] at h1
      rw [h1, List.take_of_length_le (by omega)]
    match fa with
    | none =>
      exact ⟨3, by rw [load_to_staging_clean sch tbl tm im dest rows hne, ← hall]⟩
    | some k =>
      by_cases hk : k < 3
      · refine ⟨k, ?_⟩
        rw [load_to_staging_fail sch tbl tm im dest rows k hne (by omega), hbs]
        have h1 := take_batchesOf 500 k rows
        rw [h3, min_eq_left (by omega)] at h1
        rw [h1]
      · refine ⟨3, ?_⟩
        rw [load_to_staging_fail_oob sch tbl tm im dest rows k hne (by omega)]
        rw [load_to_staging_clean sch tbl tm im dest rows hne, ← hall]

/-- C4 witness: the 1200-row scenario at a concrete row list. -/
theorem claim_C4_witness :
    (List.replicate 1200 (0 : Nat)).length = 1200 ∧
    (load_to_staging "staging" "t" "tm" "im" false (some 2) []
        (List.replicate 1200 (0 : Nat))).dest
      = (List.replicate 1200 (0 : Nat)).take 1000 :=
  ⟨by simp,
   (claim_C4_load_1200 (List.replicate 1200 (0 : Nat)) (by simp)
      "staging" "t" "tm" "im" []).2.2.2.2.1⟩

/-- C5 counterexample: a 400-row load whose second batch's insert fails has
committed exactly 200 rows (the completed first batch), yet `load_to_staging`
returns 0, not the partial count 200 the claim states. -/
theorem claim_C5_counterexample :
    (load_to_staging "staging" "t" "tm" "im" false (some 1) []
        (List.range 400)).dest.length = 200 ∧
    (load_to_staging "staging" "t" "tm" "im" false (some 1) []
        (List.range 400)).ret = 0 ∧
    (0 : Nat) ≠ 200 := by
  refine ⟨?_, ?_, by decide⟩
  · rw [load_to_staging_fail "staging" "t" "tm" "im" [] (List.range 400) 1
        (by simp) (by norm_num [numBatches, batchSize])]
    simp [batchSize, List.length_take]
  · rw [load_to_staging_fail "staging" "t" "tm" "im" [] (List.range 400) 1
        (by simp) (by norm_num [numBatches, batchSize])]

/-- C5 (amended): when an insert fails inside batch `k` of a staging load, only
that batch's transaction is rolled back (exactly one rollback; the rows of the
`k` completed batches persist as `rows.take (k * batchSize)`), the remaining
batches are abandoned, one structured error record (table name, error,
traceback) is appended to the run statistics, and the loader returns 0 — not
the partial count of committed rows. -/
theorem claim_C5_insert_failure (sch tbl tm im : String) (dest rows : List α)
    (k : Nat) (hne : rows ≠ [])
    (hk : k < numBatches rows.length (batchSize rows.length)) :
    (load_to_staging sch tbl tm im false (some k) dest rows).dest
        = rows.take (k * batchSize rows.length) ∧
    (load_to_staging sch tbl tm im false (some k) dest rows).newErrors
        = [⟨sch ++ "." ++ tbl, im, true⟩] ∧
    (load_to_staging sch tbl tm im false (some k) dest rows).rollbacks = 1 ∧
    (load_to_staging sch tbl tm im false (some k) dest rows).ret = 0 := by
  rw [load_to_staging_fail sch tbl tm im dest rows k hne hk]
  exact ⟨rfl, rfl, rfl, rfl⟩

/-- C5 witness: the amended failure semantics at a concrete two-batch load. -/
theorem claim_C5_witness :
    ([0, 1] : List Nat) ≠ [] ∧
    (load_to_staging "staging" "t" "tm" "im" false (some 0) [] [0, 1]).newErrors
      = [⟨"staging.t", "im", true⟩] :=
  ⟨by decide,
   (claim_C5_insert_failure "staging" "t" "tm" "im" [] [0, 1] 0
      (by decide) (by decide)).2.1⟩

/-- C10: loading an empty extracted row set returns 0 and performs neither the
truncate nor any insert — the destination staging table's prior contents, the
error list and the rollback count are all untouched, whatever faults would
have been hit. -/
theorem claim_C10_empty_load (sch tbl tm im : String) (tf : Bool)
    (fa : Option Nat) (dest : List α) :
    load_to_staging sch tbl tm im tf fa dest ([] : List α) = ⟨0, dest, [], 0⟩ :=
  rfl

/-! ### Extraction and the ValidIdentitySet: `extract.py`,
`extract_chemlink_data` (lines 134-285) and `extract_engagement_data`
(lines 287-415)

Each source first extracts its root `persons` table with
`WHERE deleted_at IS NULL`; the surviving primary keys form the valid-id
tuple.  Every dependent table is then extracted with
`WHERE deleted_at IS NULL AND <owner column> IN %s` against that tuple.
The owner column is `person_id` (experiences, education, collections,
view_access, posts, comments, group_members), `voter_id` (query_votes),
`created_by` (groups) or `mentioned_person_id` (mentions); it is the
`owner` field of `DepRow` here.  `ORDER BY` clauses only permute rows and
are not modelled. -/

/-- A row of a `persons` table: primary key and soft-delete marker. -/
structure PersonRow where
  pid : Nat
  deleted_at : Option Int
deriving DecidableEq, Repr

/-- A row of a dependent table: primary key, the column the extraction
filters on (`person_id` / `voter_id` / `created_by` / `mentioned_person_id`),
and the soft-delete marker. -/
structure DepRow where
  rid : Nat
  owner : Nat
  deleted_at : Option Int
deriving DecidableEq, Repr

/-- `SELECT ... FROM persons WHERE deleted_at IS NULL`. -/
def extractPersons (persons : List PersonRow) : List PersonRow :=
  persons.filter fun p => p.deleted_at.isNone

/-- `valid_person_ids = tuple([row[0] for row in rows])` built from the rows
of the root persons extraction (extract.py lines 168, 312). -/
def validIdentitySet (persons : List PersonRow) : List Nat :=
  (extractPersons persons).map PersonRow.pid

/-- `SELECT ... FROM <dependent> WHERE deleted_at IS NULL AND <owner> IN %s`. -/
def extractDependent (validIds : List Nat) (tbl : List DepRow) : List DepRow :=
  tbl.filter fun r => r.deleted_at.isNone && validIds.contains r.owner

/-- The ChemLink relational source (source A). -/
structure ChemlinkSource where
  persons : List PersonRow
  experiences : List DepRow
  education : List DepRow
  collections : List DepRow
  query_votes : List DepRow
  view_access : List DepRow
deriving DecidableEq, Repr

/-- The rows staged by one run of `extract_chemlink_data`.  When the persons
extraction is empty the function returns early and stages nothing. -/
structure ChemlinkStaged where
  persons : List PersonRow
  experiences : List DepRow
  education : List DepRow
  collections : List DepRow
  query_votes : List DepRow
  view_access : List DepRow
deriving DecidableEq, Repr

/-- `extract_chemlink_data` (extract.py lines 134-285): extract non-deleted
persons, build the valid-id set, then extract each dependent table filtered
by it.  (The glossary extraction has no person filter and is outside every
claim, so it is not modelled.) -/
def extract_chemlink_data (src : ChemlinkSource) : ChemlinkStaged :=
  let ps := extractPersons src.persons
  if ps.isEmpty then ⟨[], [], [], [], [], []⟩
  else
    let ids := ps.map PersonRow.pid
    ⟨ps, extractDependent ids src.experiences, extractDependent ids src.education,
     extractDependent ids src.collections, extractDependent ids src.query_votes,
     extractDependent ids src.view_access⟩

/-- The Engagement relational source (source B). -/
structure EngagementSource where
  persons : List PersonRow
  posts : List DepRow
  comments : List DepRow
  groups : List DepRow
  group_members : List DepRow
  mentions : List DepRow
deriving DecidableEq, Repr

/-- The rows staged by one run of `extract_engagement_data`. -/
structure EngagementStaged where
  persons : List PersonRow
  posts : List DepRow
  comments : List DepRow
  groups : List DepRow
  group_members : List DepRow
  mentions : List DepRow
deriving DecidableEq, Repr

/-- `extract_engagement_data` (extract.py lines 287-415). -/
def extract_engagement_data (src : EngagementSource) : EngagementStaged :=
  let ps := extractPersons src.persons
  if ps.isEmpty then ⟨[], [], [], [], [], []⟩
  else
    let ids := ps.map PersonRow.pid
    ⟨ps, extractDependent ids src.posts, extractDependent ids src.comments,
     extractDependent ids src.groups, extractDependent ids src.group_members,
     extractDependent ids src.mentions⟩

theorem mem_extractDependent_owner (validIds : List Nat) (tbl : List DepRow)
    (r : DepRow) (hr : r ∈ extractDependent validIds tbl) :
    r.owner ∈ validIds := by
  have h := List.of_mem_filter hr
  simp only [Bool.and_eq_true] at h
  exact List.mem_of_elem_eq_true h.2

theorem staged_owner_valid_chemlink (src : ChemlinkSource) (r : DepRow)
    (hr : r ∈ (extract_chemlink_data src).experiences
        ∨ r ∈ (extract_chemlink_data src).education
        ∨ r ∈ (extract_chemlink_data src).collections
        ∨ r ∈ (extract_chemlink_data src).query_votes
        ∨ r ∈ (extract_chemlink_data src).view_access) :
    r.owner ∈ validIdentitySet src.persons := by
  unfold extract_chemlink_data at hr
  by_cases hemp : (extractPersons src.persons).isEmpty
  · simp only [hemp, if_true] at hr
    rcases hr with h | h | h | h | h <;> simp at h
  · simp only [hemp, Bool.false_eq_true, if_false] at hr
    rcases hr with h | h | h | h | h <;>
      exact mem_extractDependent_owner _ _ r h

theorem staged_owner_valid_engagement (src : EngagementSource) (r : DepRow)
    (hr : r ∈ (extract_engagement_data src).posts
        ∨ r ∈ (extract_engagement_data src).comments
        ∨ r ∈ (extract_engagement_data src).groups
        ∨ r ∈ (extract_engagement_data src).group_members
        ∨ r ∈ (extract_engagement_data src).mentions) :
    r.owner ∈ validIdentitySet src.persons := by
  unfold extract_engagement_data at hr
  by_cases hemp : (extractPersons src.persons).isEmpty
  · simp only [hemp, if_true] at hr
    rcases hr with h | h | h | h | h <;> simp at h
  · simp only [hemp, Bool.false_eq_true, if_false] at hr
    rcases hr with h | h | h | h | h <;>
      exact mem_extractDependent_owner _ _ r h

/-- C1: for every dependent-table extraction in either relational source
(experiences, education, collections, query votes, view access for source A;
posts, comments, groups, group members, mentions for source B), every
extracted row's owner id is a member of the ValidIdentitySet built from that
source's non-deleted root persons extraction — no staged dependent row
references an identity outside that set. -/
theorem claim_C1_no_orphans (srcA : ChemlinkSource) (srcB : EngagementSource) :
    (∀ r ∈ (extract_chemlink_data srcA).experiences,
        r.owner ∈ validIdentitySet srcA.persons) ∧
    (∀ r ∈ (extract_chemlink_data srcA).education,
        r.owner ∈ validIdentitySet srcA.persons) ∧
    (∀ r ∈ (extract_chemlink_data srcA).collections,
        r.owner ∈ validIdentitySet srcA.persons) ∧
    (∀ r ∈ (extract_chemlink_data srcA).query_votes,
        r.owner ∈ validIdentitySet srcA.persons) ∧
    (∀ r ∈ (extract_chemlink_data srcA).view_access,
        r.owner ∈ validIdentitySet srcA.persons) ∧
    (∀ r ∈ (extract_engagement_data srcB).posts,
        r.owner ∈ validIdentitySet srcB.persons) ∧
    (∀ r ∈ (extract_engagement_data srcB).comments,
        r.owner ∈ validIdentitySet srcB.persons) ∧
    (∀ r ∈ (extract_engagement_data srcB).groups,
        r.owner ∈ validIdentitySet srcB.persons) ∧
    (∀ r ∈ (extract_engagement_data srcB).group_members,
        r.owner ∈ validIdentitySet srcB.persons) ∧
    (∀ r ∈ (extract_engagement_data srcB).mentions,
        r.owner ∈ validIdentitySet srcB.persons) :=
  ⟨fun r hr => staged_owner_valid_chemlink srcA r (Or.inl hr),
   fun r hr => staged_owner_valid_chemlink srcA r (Or.inr (Or.inl hr)),
   fun r hr => staged_owner_valid_chemlink srcA r (Or.inr (Or.inr (Or.inl hr))),
   fun r hr => staged_owner_valid_chemlink srcA r
     (Or.inr (Or.inr (Or.inr (Or.inl hr)))),
   fun r hr => staged_owner_valid_chemlink srcA r
     (Or.inr (Or.inr (Or.inr (Or.inr hr)))),
   fun r hr => staged_owner_valid_engagement srcB r (Or.inl hr),
   fun r hr => staged_owner_valid_engagement srcB r (Or.inr (Or.inl hr)),
   fun r hr => staged_owner_valid_engagement srcB r
     (Or.inr (Or.inr (Or.inl hr))),
   fun r hr => staged_owner_valid_engagement srcB r
     (Or.inr (Or.inr (Or.inr (Or.inl hr)))),
   fun r hr => staged_owner_valid_engagement srcB r
     (Or.inr (Or.inr (Or.inr (Or.inr hr))))⟩

/-- C1 witness: a concrete source with one live person, one soft-deleted
person and one experience row owned by the live person. -/
theorem claim_C1_witness :
    (⟨1, 10, none⟩ : DepRow) ∈ (extract_chemlink_data
        ⟨[⟨10, none⟩, ⟨11, some 5⟩], [⟨1, 10, none⟩, ⟨2, 11, none⟩],
         [], [], [], []⟩).experiences ∧
    (10 : Nat) ∈ validIdentitySet [⟨10, none⟩, ⟨11, some 5⟩] :=
  ⟨by decide,
   (claim_C1_no_orphans
      ⟨[⟨10, none⟩, ⟨11, some 5⟩], [⟨1, 10, none⟩, ⟨2, 11, none⟩],
       [], [], [], []⟩
      ⟨[], [], [], [], [], []⟩).1 ⟨1, 10, none⟩ (by decide)⟩

/-! ### Activity events: `transform.py`, `transform_user_activity_events`
(lines 308-461)

Each of the five event inserts (post / comment / vote / collection / view)
selects the non-deleted staging rows whose owner joins to a UnifiedUser and
computes `is_first_activity_of_type` as
`row.created_at = (SELECT MIN(created_at) FROM <same staging table>
WHERE <owner> = row.<owner>)`.  Note that the MIN subquery ranges over ALL
staging rows of that owner — soft-deleted rows included and without the
unified-user join.  The vote/collection/view inserts use the owner id itself
as the event's `user_id` and the join `owner ∈ {chemlink ids of unified
users}`; the post/comment inserts relabel the engagement person id to the
joined user's chemlink id, which permutes ids but not the per-owner grouping,
so one definition covers all five inserts. -/

/-- A row of one activity staging table (posts, comments, query_votes,
collections, view_access): primary key, owning person id, creation
timestamp, soft-delete marker. -/
structure ActRow where
  rid : Nat
  owner : Nat
  created_at : Int
  deleted_at : Option Int
deriving DecidableEq, Repr

/-- `MIN` over a list, `none` on the empty list (SQL `MIN` of no rows). -/
def lmin : List Int → Option Int
  | [] => none
  | x :: xs =>
    match lmin xs with
    | none => some x
    | some y => some (min x y)

/-- The scalar subquery `SELECT MIN(created_at) FROM <table> WHERE <owner> =
...` — over every staging row of that owner, deleted rows included. -/
def minCreated (rows : List ActRow) (owner : Nat) : Option Int :=
  lmin ((rows.filter fun q => q.owner == owner).map ActRow.created_at)

/-- One row of `core.user_activity_events` (the fields the claims mention). -/
structure ActivityEvent where
  user : Nat
  activity_type : String
  activity_date : Int
  is_first_activity_of_type : Bool
deriving DecidableEq, Repr

/-- One event-insert statement of `transform_user_activity_events`: take the
non-deleted staging rows whose owner resolves to a unified user, and emit one
typed event per row, with the first-of-type flag compared against the
owner's full-table minimum timestamp. -/
def activityEvents (atype : String) (rows : List ActRow)
    (unifiedIds : List Nat) : List ActivityEvent :=
  (rows.filter fun r => r.deleted_at.isNone && unifiedIds.contains r.owner).map
    fun r => ⟨r.owner, atype, r.created_at,
      decide (minCreated rows r.owner = some r.created_at)⟩

theorem lmin_eq_none (xs : List Int) : lmin xs = none ↔ xs = [] := by
  cases xs with
  | nil => simp [lmin]
  | cons x xs =>
    simp only [lmin]
    cases lmin xs <;> simp

theorem lmin_le_mem (xs : List Int) :
    ∀ m : Int, lmin xs = some m → ∀ x ∈ xs, m ≤ x := by
  induction xs with
  | nil => intro m hm; simp [lmin] at hm
  | cons a as ih =>
    intro m hm x hx
    rw [lmin] at hm
    cases h : lmin as with
    | none =>
      rw [h, Option.some.injEq] at hm
      rw [lmin_eq_none] at h
      subst h
      rcases List.mem_cons.mp hx with rfl | hxs
      · omega
      · simp at hxs
    | some y =>
      rw [h, Option.some.injEq] at hm
      rcases List.mem_cons.mp hx with rfl | hxs
      · subst hm; exact min_le_left _ _
      · exact le_trans (hm ▸ min_le_right a y) (ih y h x hxs)

theorem lmin_mem (xs : List Int) :
    ∀ m : Int, lmin xs = some m → m ∈ xs := by
  induction xs with
  | nil => intro m hm; simp [lmin] at hm
  | cons a as ih =>
    intro m hm
    rw [lmin] at hm
    cases h : lmin as with
    | none =>
      rw [h, Option.some.injEq] at hm
      subst hm
      exact List.mem_cons_self _ _
    | some y =>
      rw [h, Option.some.injEq] at hm
      rcases min_cases a y with ⟨he, _⟩ | ⟨he, _⟩
      · have hma : m = a := by rw [← hm, he]
        rw [hma]
        exact List.mem_cons_self _ _
      · have hmy : m = y := by rw [← hm, he]
        exact List.mem_cons_of_mem a (ih m (by rw [hmy]; exact h))

/-- C2 counterexample: two live vote rows of person 7 share the minimal
timestamp 5, so BOTH produced events for the (7, vote) group carry
`is_first_activity_of_type = true` — the group does not have exactly one
flagged row. -/
theorem claim_C2_counterexample :
    ((activityEvents "vote" [⟨1, 7, 5, none⟩, ⟨2, 7, 5, none⟩] [7]).countP
        fun e => e.user == 7 && e.is_first_activity_of_type) = 2 ∧
    (2 : Nat) ≠ 1 := by
  constructor
  · decide
  · decide

/-- C2 (amended): in every (user, type) group of produced ActivityEvent rows,
every row flagged `is_first_activity_of_type` carries the group's minimum
activity timestamp; and when the staging rows of that user have pairwise
distinct timestamps and the row attaining the minimum is not soft-deleted and
resolves to a unified user, the group has exactly one flagged row.  (The
original claim's "exactly one" fails when timestamps tie, or when the
earliest staging row is soft-deleted — the flag is computed against the
minimum over ALL staging rows of the owner.) -/
theorem claim_C2_first_flag (atype : String) (rows : List ActRow)
    (ids : List Nat) :
    (∀ e ∈ activityEvents atype rows ids, e.is_first_activity_of_type = true →
      ∀ e' ∈ activityEvents atype rows ids, e'.user = e.user →
        e.activity_date ≤ e'.activity_date) ∧
    (∀ (u : Nat) (m : Int) (r0 : ActRow),
      ((rows.filter fun r => r.owner == u).map ActRow.created_at).Nodup →
      minCreated rows u = some m →
      r0 ∈ rows → r0.owner = u → r0.created_at = m →
      r0.deleted_at = none → ids.contains u = true →
      ((activityEvents atype rows ids).countP
          fun e => e.user == u && e.is_first_activity_of_type) = 1) := by
  constructor
  · intro e he hfl e' he' hu
    obtain ⟨r, hrf, hre⟩ := List.mem_map.mp he
    obtain ⟨r', hrf', hre'⟩ := List.mem_map.mp he'
    have hr : r ∈ rows := (List.mem_filter.mp hrf).1
    have hr' : r' ∈ rows := (List.mem_filter.mp hrf').1
    have hmin : minCreated rows r.owner = some r.created_at := by
      have : e.is_first_activity_of_type
          = decide (minCreated rows r.owner = some r.created_at) := by
        rw [← hre]
      exact of_decide_eq_true (this ▸ hfl)
    have hown : r'.owner = r.owner := by
      have h1 : e.user = r.owner := by rw [← hre]
      have h2 : e'.user = r'.owner := by rw [← hre']
      rw [← h1, ← h2, hu]
    have hmem : r'.created_at
        ∈ (rows.filter fun q => q.owner == r.owner).map ActRow.created_at := by
      refine List.mem_map.mpr ⟨r', List.mem_filter.mpr ⟨hr', ?_⟩, rfl⟩
      simp [hown]
    have hle := lmin_le_mem _ _ hmin _ hmem
    have hde : e.activity_date = r.created_at := by rw [← hre]
    have hde' : e'.activity_date = r'.created_at := by rw [← hre']
    rw [hde, hde']
    exact hle
  · intro u m r0 hnd hmin hr0 hr0own hr0ts hr0del hids
    rw [activityEvents, List.countP_map, List.countP_filter]
    have hcnt : ((rows.filter fun r => r.owner == u).map ActRow.created_at).count m
        = 1 := by
      refine List.count_eq_one_of_mem hnd ?_
      exact lmin_mem _ m hmin
    have hQ : ((rows.filter fun r => r.owner == u).map ActRow.created_at).count m
        = rows.countP fun r => (r.created_at == m) && (r.owner == u) := by
      show ((rows.filter fun r => r.owner == u).map ActRow.created_at).countP
          (· == m) = _
      rw [List.countP_map, List.countP_filter]
      rfl
    have hub : (rows.countP fun r =>
        ((fun e : ActivityEvent => e.user == u && e.is_first_activity_of_type) ∘
          fun r : ActRow => ⟨r.owner, atype, r.created_at,
            decide (minCreated rows r.owner = some r.created_at)⟩) r
          && (r.deleted_at.isNone && ids.contains r.owner))
        ≤ rows.countP fun r => (r.created_at == m) && (r.owner == u) := by
      refine List.countP_mono_left ?_
      intro r _ hP
      simp only [Function.comp, Bool.and_eq_true, beq_iff_eq,
        decide_eq_true_eq] at hP
      obtain ⟨⟨hou, hfl⟩, _, _⟩ := hP
      rw [hou] at hfl
      rw [hmin, Option.some.injEq] at hfl
      simp [hou, hfl]
    have hlb : 0 < rows.countP fun r =>
        ((fun e : ActivityEvent => e.user == u && e.is_first_activity_of_type) ∘
          fun r : ActRow => ⟨r.owner, atype, r.created_at,
            decide (minCreated rows r.owner = some r.created_at)⟩) r
          && (r.deleted_at.isNone && ids.contains r.owner) := by
      refine List.countP_pos_iff.mpr ⟨r0, hr0, ?_⟩
      simp only [Function.comp, Bool.and_eq_true, beq_iff_eq,
        decide_eq_true_eq, Option.isNone_iff_eq_none]
      exact ⟨⟨hr0own, by rw [hr0own, hmin, hr0ts]⟩, hr0del, by rw [hr0own]; exact hids⟩
    rw [← hQ, hcnt] at hub
    omega

/-- C2 witness: two live vote rows of person 7 with distinct timestamps 3
and 5 — the group has exactly one flagged row. -/
theorem claim_C2_witness :
    ((([⟨1, 7, 3, none⟩, ⟨2, 7, 5, none⟩] : List ActRow).filter
        fun r => r.owner == 7).map ActRow.created_at).Nodup ∧
    ((activityEvents "vote" [⟨1, 7, 3, none⟩, ⟨2, 7, 5, none⟩] [7]).countP
        fun e => e.user == 7 && e.is_first_activity_of_type) = 1 :=
  ⟨by decide,
   (claim_C2_first_flag "vote" [⟨1, 7, 3, none⟩, ⟨2, 7, 5, none⟩] [7]).2
     7 3 ⟨1, 7, 3, none⟩ (by decide) (by decide) (by decide) (by decide)
     (by decide) (by decide) (by decide)⟩

/-! ### Unified users: `transform.py`, `transform_unified_users`
(lines 65-263)

The claims concern three derived columns of the big `SELECT`:
* `profile_completion_score` (lines 143-153): a sum of eight `CASE WHEN`
  weights over field presence/length checks;
* `user_lifecycle_stage` (lines 200-217): a `CASE` over the recency of
  `GREATEST(cp.updated_at, COALESCE(MAX(posts), cp.created_at),
  COALESCE(MAX(query_votes), cp.created_at))` and three `EXISTS` checks
  (posts, query_votes, collections — note: not comments, not view_access);
* `activation_status` (lines 219-224): the same three `EXISTS` checks.
The post/comment subqueries are keyed by the left-joined engagement person id
`ep.id` (possibly NULL), the vote/collection/view subqueries by `cp.id`. -/

/-- The `staging.chemlink_persons` columns the derived fields read. -/
structure ChemlinkPerson where
  pid : Nat
  first_name : Option String
  last_name : Option String
  email : Option String
  headline_description : Option String
  linked_in_url : Option String
  location_id : Option Nat
  created_at : Int
  updated_at : Int
deriving DecidableEq, Repr

/-- `x IS NOT NULL AND LENGTH(x) > 0`. -/
def hasText (o : Option String) : Bool :=
  match o with
  | none => false
  | some s => s.length > 0

/-- `x IS NOT NULL AND LENGTH(x) > 10`. -/
def hasLongText (o : Option String) : Bool :=
  match o with
  | none => false
  | some s => s.length > 10

/-- `SELECT COUNT(*) FROM <table> WHERE <owner> = pid AND deleted_at IS
NULL`. -/
def countOwned (tbl : List DepRow) (pid : Nat) : Nat :=
  (tbl.filter fun r => r.owner == pid && r.deleted_at.isNone).length

/-- The `profile_completion_score` expression (transform.py lines 144-153):
10 + 10 + 10 + 15 + 10 + 20 + 15 + 10 over the eight presence checks. -/
def profile_completion_score (cp : ChemlinkPerson) (exps edus : List DepRow) :
    Nat :=
  (if hasText cp.first_name then 10 else 0) +
  (if hasText cp.last_name then 10 else 0) +
  (if cp.email.isSome then 10 else 0) +
  (if hasLongText cp.headline_description then 15 else 0) +
  (if cp.linked_in_url.isSome then 10 else 0) +
  (if 0 < countOwned exps cp.pid then 20 else 0) +
  (if 0 < countOwned edus cp.pid then 15 else 0) +
  (if cp.location_id.isSome then 10 else 0)

/-- The documented rule table from the spec: (indicator, weight) pairs for
first name, last name, email, headline description, LinkedIn URL, experience
records, education records and location. -/
def scoreRuleTable (cp : ChemlinkPerson) (exps edus : List DepRow) :
    List (Bool × Nat) :=
  [(hasText cp.first_name, 10),
   (hasText cp.last_name, 10),
   (cp.email.isSome, 10),
   (hasLongText cp.headline_description, 15),
   (cp.linked_in_url.isSome, 10),
   (decide (0 < countOwned exps cp.pid), 20),
   (decide (0 < countOwned edus cp.pid), 15),
   (cp.location_id.isSome, 10)]

/-- The spec's "fixed weighted sum over field presence indicators". -/
def weightedSum (tbl : List (Bool × Nat)) : Nat :=
  (tbl.map fun p => if p.1 then p.2 else 0).sum

/-- C6: every UnifiedUser row's profile_completion_score lies in [0,100]
(trivially ≥ 0 as a count of weights) and equals the fixed weighted sum of
the documented rule table over the eight field-presence indicators — a
deterministic function of exactly those indicators. -/
theorem claim_C6_profile_score (cp : ChemlinkPerson) (exps edus : List DepRow) :
    profile_completion_score cp exps edus
      = weightedSum (scoreRuleTable cp exps edus) ∧
    profile_completion_score cp exps edus ≤ 100 := by
  constructor
  · simp only [profile_completion_score, weightedSum, scoreRuleTable,
      List.map_cons, List.map_nil, List.sum_cons, List.sum_nil,
      decide_eq_true_eq]
    omega
  · unfold profile_completion_score
    split_ifs <;> omega

/-! Lifecycle stage and activation status. -/

/-- The timestamps of one owner's rows in an activity staging table —
the subqueries `... WHERE <owner> = <id>` with no delete filter. -/
def tsOf (tbl : List ActRow) (owner : Nat) : List Int :=
  (tbl.filter fun r => r.owner == owner).map ActRow.created_at

/-- `MAX` over a list, `none` on the empty list. -/
def lmax : List Int → Option Int
  | [] => none
  | x :: xs =>
    match lmax xs with
    | none => some x
    | some y => some (max x y)

/-- `COALESCE(MAX(xs), d)`. -/
def coalesceMax (xs : List Int) (d : Int) : Int := (lmax xs).getD d

/-- The post subqueries are keyed by the LEFT-JOINed `ep.id`, which may be
NULL; a NULL key matches no rows. -/
def postsOf (posts : List ActRow) (epId : Option Nat) : List Int :=
  match epId with
  | none => []
  | some e => tsOf posts e

/-- `GREATEST(cp.updated_at, COALESCE(MAX(posts.created_at), cp.created_at),
COALESCE(MAX(query_votes.created_at), cp.created_at))` — the recency source
of the lifecycle CASE (lines 202-211).  Only posts and votes enter it. -/
def lifecycleLastActivity (cp : ChemlinkPerson) (epId : Option Nat)
    (posts votes : List ActRow) : Int :=
  max cp.updated_at
    (max (coalesceMax (postsOf posts epId) cp.created_at)
      (coalesceMax (tsOf votes cp.pid) cp.created_at))

/-- The `user_lifecycle_stage` CASE (transform.py lines 200-217).  The
signature receives all five activity staging tables; the SQL reads only
posts, query_votes and collections. -/
def user_lifecycle_stage (now : Int) (cp : ChemlinkPerson) (epId : Option Nat)
    (posts _comments votes cols _views : List ActRow) : String :=
  let last := lifecycleLastActivity cp epId posts votes
  if now - last > 90 then "CHURNED"
  else if now - last > 30 then "DORMANT"
  else if !(postsOf posts epId).isEmpty || !(tsOf votes cp.pid).isEmpty
      || !(tsOf cols cp.pid).isEmpty then "ENGAGED"
  else if now - cp.created_at ≤ 7 then "NEW"
  else "ACTIVATED"

/-- The `activation_status` CASE (transform.py lines 219-224): posts OR
query_votes OR collections exist. -/
def activation_status (cp : ChemlinkPerson) (epId : Option Nat)
    (posts _comments votes cols _views : List ActRow) : Bool :=
  !(postsOf posts epId).isEmpty || !(tsOf votes cp.pid).isEmpty
    || !(tsOf cols cp.pid).isEmpty

theorem tsOf_ne_nil_iff (tbl : List ActRow) (o : Nat) :
    tsOf tbl o ≠ [] ↔ ∃ r ∈ tbl, r.owner = o := by
  rw [tsOf, ← List.isEmpty_eq_false]
  simp [List.filter_eq_nil_iff, List.isEmpty_iff]

/-- C7 counterexample: a user whose only activity is a comment.  The claim
says activation_status is true exactly when some activity in the five
tracked categories exists; the code consults only posts, votes and
collections, so this user's activation_status is false despite the comment. -/
theorem claim_C7_counterexample :
    activation_status ⟨1, none, none, none, none, none, none, 0, 0⟩ (some 2)
        [] [⟨1, 2, 5, none⟩] [] [] [] = false ∧
    ([⟨1, 2, 5, none⟩] : List ActRow) ≠ [] := by
  constructor
  · decide
  · decide

/-- C7 (amended): lifecycle stage and activation status are derived from
posts, query votes and collections only — comments and view_access never
enter either (both are invariant under changing those two tables).
activation_status is true exactly when the user has a post (through the
engagement join), a vote, or a collection; the stage is CHURNED when
`now - GREATEST(updated_at, latest post, latest vote)` exceeds 90 days,
DORMANT when it exceeds 30, otherwise ENGAGED given any post/vote/collection,
otherwise NEW within 7 days of signup, else ACTIVATED. -/
theorem claim_C7_lifecycle (now : Int) (cp : ChemlinkPerson)
    (epId : Option Nat) (posts comments votes cols views : List ActRow) :
    (activation_status cp epId posts comments votes cols views = true ↔
      ((∃ e, epId = some e ∧ ∃ r ∈ posts, r.owner = e) ∨
       (∃ r ∈ votes, r.owner = cp.pid) ∨ (∃ r ∈ cols, r.owner = cp.pid))) ∧
    (user_lifecycle_stage now cp epId posts comments votes cols views
      = user_lifecycle_stage now cp epId posts [] votes cols []) ∧
    (activation_status cp epId posts comments votes cols views
      = activation_status cp epId posts [] votes cols []) ∧
    (90 < now - lifecycleLastActivity cp epId posts votes →
      user_lifecycle_stage now cp epId posts comments votes cols views
        = "CHURNED") ∧
    (now - lifecycleLastActivity cp epId posts votes ≤ 90 →
     30 < now - lifecycleLastActivity cp epId posts votes →
      user_lifecycle_stage now cp epId posts comments votes cols views
        = "DORMANT") ∧
    (now - lifecycleLastActivity cp epId posts votes ≤ 30 →
     activation_status cp epId posts comments votes cols views = true →
      user_lifecycle_stage now cp epId posts comments votes cols views
        = "ENGAGED") ∧
    (now - lifecycleLastActivity cp epId posts votes ≤ 30 →
     activation_status cp epId posts comments votes cols views = false →
     now - cp.created_at ≤ 7 →
      user_lifecycle_stage now cp epId posts comments votes cols views
        = "NEW") ∧
    (now - lifecycleLastActivity cp epId posts votes ≤ 30 →
     activation_status cp epId posts comments votes cols views = false →
     7 < now - cp.created_at →
      user_lifecycle_stage now cp epId posts comments votes cols views
        = "ACTIVATED") := by
  refine ⟨?_, rfl, rfl, ?_, ?_, ?_, ?_, ?_⟩
  · simp only [activation_status, Bool.or_eq_true, Bool.not_eq_true',
      List.isEmpty_eq_false]
    constructor
    · rintro ((h | h) | h)
      · left
        match epId with
        | none => simp [postsOf] at h
        | some e =>
          refine ⟨e, rfl, ?_⟩
          exact (tsOf_ne_nil_iff posts e).mp h
      · exact Or.inr (Or.inl ((tsOf_ne_nil_iff votes cp.pid).mp h))
      · exact Or.inr (Or.inr ((tsOf_ne_nil_iff cols cp.pid).mp h))
    · rintro (⟨e, hee, h⟩ | h | h)
      · refine Or.inl (Or.inl ?_)
        rw [hee]
        exact (tsOf_ne_nil_iff posts e).mpr h
      · exact Or.inl (Or.inr ((tsOf_ne_nil_iff votes cp.pid).mpr h))
      · exact Or.inr ((tsOf_ne_nil_iff cols cp.pid).mpr h)
  · intro h
    simp only [user_lifecycle_stage]
    rw [if_pos h]
  · intro h1 h2
    simp only [user_lifecycle_stage]
    rw [if_neg (by omega), if_pos h2]
  · intro h1 h2
    simp only [user_lifecycle_stage]
    rw [activation_status] at h2
    rw [if_neg (by omega), if_neg (by omega), if_pos h2]
  · intro h1 h2 h3
    simp only [user_lifecycle_stage]
    rw [if_neg (by omega), if_neg (by omega),
      if_neg (by rw [activation_status] at h2; simp [h2]), if_pos h3]
  · intro h1 h2 h3
    simp only [user_lifecycle_stage]
    rw [if_neg (by omega), if_neg (by omega),
      if_neg (by rw [activation_status] at h2; simp [h2]), if_neg (by omega)]

/-- C7 witness: a user with no activity, last touched 100 days ago, is
CHURNED. -/
theorem claim_C7_witness :
    90 < (100 : Int) - lifecycleLastActivity
        ⟨1, none, none, none, none, none, none, 0, 0⟩ (some 2) [] [] ∧
    user_lifecycle_stage 100 ⟨1, none, none, none, none, none, none, 0, 0⟩
        (some 2) [] [] [] [] [] = "CHURNED" :=
  ⟨by decide,
   (claim_C7_lifecycle 100 ⟨1, none, none, none, none, none, none, 0, 0⟩
      (some 2) [] [] [] [] []).2.2.2.1 (by decide)⟩

/-! ### Retention rates: `transform.py`, `transform_user_cohorts`
(lines 463-519) and `aggregate.py`, `aggregate_monthly_metrics`
(lines 300-349)

Cohort side: rows are grouped by signup month; within a group the
denominator is `COUNT(*)`, never zero, and each rate is
`ROUND((count_filter::NUMERIC / COUNT(*)) * 100, 2)`.  The model works at
the level of one (necessarily nonempty) group.

Monthly side: the retention_rate of the row at position `i` of the
period-ordered rollup is
`CASE WHEN LAG(mau) > 0 THEN ROUND(retained/LAG(mau)*100, 2) ELSE 0 END`.
`LAG(mau)` is NULL on the first row and when the previous month has no
qualifying activity (the LEFT JOIN misses), making the CASE fall to 0; but
`ret.retained_from_prev` is taken without COALESCE from a CTE that only
produces the current calendar month's row, so for any other month the
numerator is NULL and the computed rate is NULL.  Numbers are modelled in ℚ;
`ROUND(x, 2)` is `round (x * 100) / 100`, and a month is an integer index. -/

/-- `ROUND(x, 2)` on a nonnegative numeric. -/
def round2 (q : ℚ) : ℚ := ((round (q * 100) : ℤ) : ℚ) / 100

/-- `ROUND((num::NUMERIC / den) * 100, 2)`. -/
def pctOf (num den : Nat) : ℚ := round2 ((num : ℚ) / (den : ℚ) * 100)

/-- The columns of `core.unified_users` the cohort rates read. -/
structure UUser where
  signup_date : Int
  last_activity_date : Int
  activation_status : Bool
deriving DecidableEq, Repr

/-- `COUNT(*) FILTER (WHERE last_activity_date >= signup_date + INTERVAL 'd
days')` within one cohort group. -/
def retainedCount (g : List UUser) (d : Int) : Nat :=
  g.countP fun u => decide (u.signup_date + d ≤ u.last_activity_date)

/-- `retention_rate_30d/60d/90d` of one cohort group (transform.py lines
509-511). -/
def retention_rate (g : List UUser) (d : Int) : ℚ :=
  pctOf (retainedCount g d) g.length

/-- `activation_rate` of one cohort group (transform.py line 504). -/
def cohort_activation_rate (g : List UUser) : ℚ :=
  pctOf (g.countP fun u => u.activation_status) g.length

/-- The `core.unified_users` columns the monthly MAU join reads. -/
structure MUserRow where
  uid : Nat
  is_test : Bool
  deleted : Bool
deriving DecidableEq, Repr

/-- One `core.user_activity_events` row, reduced to user and activity month. -/
structure MEvent where
  user : Nat
  month : Int
deriving DecidableEq, Repr

/-- The `monthly_activity_users` join condition: the event's user matches a
non-deleted, non-test unified user. -/
def qualifies (users : List MUserRow) (uid : Nat) : Bool :=
  users.any fun u => u.uid == uid && !u.is_test && !u.deleted

/-- `COUNT(DISTINCT e.user_id)` of qualifying events in month `m`
(the `monthly_activity_users` CTE, aggregate.py lines 267-277). -/
def mauOf (users : List MUserRow) (events : List MEvent) (m : Int) : Nat :=
  (((events.filter fun e => e.month == m && qualifies users e.user).map
      MEvent.user).dedup).length

/-- The `prev_month_retention` CTE (aggregate.py lines 288-298): distinct
users active in the current calendar month who were also active the month
before.  Note: no test-account or deleted filter here. -/
def retainedPrevOf (events : List MEvent) (cur : Int) : Nat :=
  (((events.filter fun e => e.month == cur
      && events.any fun e2 => e2.user == e.user && e2.month == cur - 1).map
        MEvent.user).dedup).length

/-- The `retention_rate` column of `aggregates.monthly_metrics`
(aggregate.py lines 339-343), one `Option ℚ` (SQL value or NULL) per rollup
row.  `months` is the period-ordered list of rollup months, `cur` the month
of `CURRENT_DATE`. -/
def monthlyRetentionRates (users : List MUserRow) (events : List MEvent)
    (months : List Int) (cur : Int) : List (Option ℚ) :=
  (List.range months.length).map fun i =>
    if i = 0 then some 0
    else if 0 < mauOf users events (months.getD (i - 1) 0) then
      if months.getD i 0 = cur then
        some (round2 ((retainedPrevOf events cur : ℚ)
          / (mauOf users events (months.getD (i - 1) 0) : ℚ) * 100))
      else none
    else some 0

theorem round2_bounds (q : ℚ) (h0 : 0 ≤ q) (h1 : q ≤ 100) :
    0 ≤ round2 q ∧ round2 q ≤ 100 := by
  have hr0 : (0 : ℤ) ≤ round (q * 100) := by
    rw [round_eq]
    have h := Int.floor_le_floor (show (1 / 2 : ℚ) ≤ q * 100 + 1 / 2 by linarith)
    rw [show ⌊(1 / 2 : ℚ)⌋ = 0 by rw [Int.floor_eq_iff]; norm_num] at h
    exact h
  have hr1 : round (q * 100) ≤ 10000 := by
    rw [round_eq]
    have h := Int.floor_le_floor
      (show q * 100 + 1 / 2 ≤ (10000 : ℚ) + 1 / 2 by linarith)
    rw [show ⌊(10000 : ℚ) + 1 / 2⌋ = 10000 by
      rw [Int.floor_eq_iff]; norm_num] at h
    exact h
  unfold round2
  constructor
  · positivity
  · rw [div_le_iff₀ (by norm_num : (0 : ℚ) < 100)]
    exact_mod_cast hr1

theorem pctOf_bounds (num den : Nat) (hle : num ≤ den) (hpos : 0 < den) :
    0 ≤ pctOf num den ∧ pctOf num den ≤ 100 := by
  have hden : (0 : ℚ) < (den : ℚ) := by exact_mod_cast hpos
  have h0 : 0 ≤ (num : ℚ) / (den : ℚ) * 100 := by positivity
  have h1 : (num : ℚ) / (den : ℚ) * 100 ≤ 100 := by
    have : (num : ℚ) / (den : ℚ) ≤ 1 :=
      (div_le_one hden).mpr (by exact_mod_cast hle)
    linarith
  exact round2_bounds _ h0 h1

theorem getD_map_range (n : Nat) (f : Nat → α) (d : α) (i : Nat) (h : i < n) :
    ((List.range n).map f).getD i d = f i := by
  have hlen : i < ((List.range n).map f).length := by simpa using h
  rw [List.getD_eq_getElem _ _ hlen, List.getElem_map, List.getElem_range]

/-- C8 counterexample: user 7 (not a test account, not deleted) is active in
months 0 and 1; the current calendar month is 5.  The monthly-metrics row
for month 1 has previous-month MAU 1 > 0, but the retained-users CTE only
covers month 5, so its retention_rate is NULL — not 0 and not in [0,100],
refuting the claim that the computation never produces a non-value. -/
theorem claim_C8_counterexample :
    monthlyRetentionRates [⟨7, false, false⟩] [⟨7, 0⟩, ⟨7, 1⟩] [0, 1] 5
      = [some 0, none] ∧ (none : Option ℚ) ≠ some 0 := by
  constructor
  · decide
  · decide

/-- C8 (amended): cohort retention-rate and activation-rate fields lie in
[0,100] and their denominator (the cohort size) is never zero; the monthly
retention_rate equals 0 whenever the previous-period MAU is absent or zero
(first row, or previous month without qualifying activity), and the
computation never divides by zero — but for a rollup month other than the
current calendar month whose previous-month MAU is positive, the field is
NULL (the retained-users numerator exists only for the current month)
rather than a number in [0,100]. -/
theorem claim_C8_retention_rates :
    (∀ (g : List UUser) (d : Int), g ≠ [] →
      0 ≤ retention_rate g d ∧ retention_rate g d ≤ 100 ∧
      0 ≤ cohort_activation_rate g ∧ cohort_activation_rate g ≤ 100 ∧
      (g.length : ℚ) ≠ 0) ∧
    (∀ (users : List MUserRow) (events : List MEvent) (months : List Int)
        (cur : Int) (i : Nat), i < months.length →
      (i = 0 ∨ mauOf users events (months.getD (i - 1) 0) = 0) →
      (monthlyRetentionRates users events months cur).getD i none = some 0) ∧
    (∀ (users : List MUserRow) (events : List MEvent) (months : List Int)
        (cur : Int) (i : Nat), i < months.length → 0 < i →
      0 < mauOf users events (months.getD (i - 1) 0) →
      months.getD i 0 ≠ cur →
      (monthlyRetentionRates users events months cur).getD i none = none) := by
  refine ⟨?_, ?_, ?_⟩
  · intro g d hg
    have hpos : 0 < g.length := List.length_pos.mpr hg
    have h1 := pctOf_bounds (retainedCount g d) g.length
      (List.countP_le_length _) hpos
    have h2 := pctOf_bounds (g.countP fun u => u.activation_status) g.length
      (List.countP_le_length _) hpos
    exact ⟨h1.1, h1.2, h2.1, h2.2, by positivity⟩
  · intro users events months cur i hi hz
    rw [monthlyRetentionRates, getD_map_range _ _ _ _ hi]
    by_cases h0 : i = 0
    · rw [if_pos h0]
    · rcases hz with rfl | hmau
      · exact absurd rfl h0
      · rw [if_neg h0, if_neg (by omega)]
  · intro users events months cur i hi hi0 hmau hne
    rw [monthlyRetentionRates, getD_map_range _ _ _ _ hi]
    rw [if_neg (by omega), if_pos hmau, if_neg hne]

/-- C8 witness: the amended statement at a one-user cohort and at the
concrete two-month monthly rollup. -/
theorem claim_C8_witness :
    ([⟨0, 40, true⟩] : List UUser) ≠ [] ∧
    retention_rate [⟨0, 40, true⟩] 30 ≤ 100 ∧
    (monthlyRetentionRates [⟨7, false, false⟩] [⟨7, 0⟩, ⟨7, 1⟩] [0, 1] 5).getD
        0 none = some 0 ∧
    (monthlyRetentionRates [⟨7, false, false⟩] [⟨7, 0⟩, ⟨7, 1⟩] [0, 1] 5).getD
        1 none = none :=
  ⟨by decide,
   (claim_C8_retention_rates.1 [⟨0, 40, true⟩] 30 (by decide)).2.1,
   claim_C8_retention_rates.2.1 [⟨7, false, false⟩] [⟨7, 0⟩, ⟨7, 1⟩] [0, 1] 5 0
     (by decide) (Or.inl rfl),
   claim_C8_retention_rates.2.2 [⟨7, false, false⟩] [⟨7, 0⟩, ⟨7, 1⟩] [0, 1] 5 1
     (by decide) (by decide) (by decide) (by decide)⟩

/-! ### Schema gate: `transform.py`, `transform_neo4j_data` (lines 521-569)
and `aggregate.py`, `check_tables_exist` (lines 39-57) / `main`
(lines 1021-1048)

Both stages probe `information_schema.tables` for a fixed list of required
`(schema, table)` pairs.  If any is missing, the transform stage logs a
warning and returns 0 without touching `stats['errors']`, and the aggregate
`main` skips the seven graph-aggregate steps with a warning.  Each `main`
exits 0 iff `stats['errors']` is empty.  The catalog is modelled as the list
of existing `(schema, table)` pairs; the statements executed in the
non-missing branch are abstracted as a state transformer argument, since the
claim concerns only the skip path and the exit code. -/

/-- The accumulating run state of one script invocation: the
`stats['errors']` list, the number of warning logs emitted, and how many
graph-stage SQL statements were executed. -/
structure RunStats where
  errors : List String
  warnings : Nat
  ranGraphSteps : Nat
deriving DecidableEq, Repr

/-- `check_tables_exist` (aggregate.py lines 39-57; the same inline probe
appears in transform.py lines 547-563): the `"schema.table"` names of the
required tables missing from the catalog. -/
def check_tables_exist (catalog required : List (String × String)) :
    List String :=
  (required.filter fun t => !catalog.contains t).map fun t => t.1 ++ "." ++ t.2

/-- The required-table list of `transform_neo4j_data` (transform.py lines
527-545). -/
def transformNeo4jRequired : List (String × String) :=
  [("core", "user_relationships"), ("core", "career_paths"),
   ("core", "education_networks"), ("core", "company_networks"),
   ("core", "location_networks"), ("core", "project_collaborations"),
   ("staging", "neo4j_relationships"), ("staging", "neo4j_persons"),
   ("staging", "neo4j_companies"), ("staging", "neo4j_roles"),
   ("staging", "neo4j_schools"), ("staging", "neo4j_degrees"),
   ("staging", "neo4j_locations"), ("staging", "neo4j_projects"),
   ("staging", "neo4j_languages"), ("staging", "neo4j_experiences"),
   ("staging", "neo4j_educations")]

/-- The required-table list guarding the graph aggregates (aggregate.py
lines 1021-1035). -/
def aggregateNeo4jRequired : List (String × String) :=
  [("core", "user_relationships"), ("core", "company_networks"),
   ("core", "career_paths"), ("core", "education_networks"),
   ("core", "location_networks"), ("core", "project_collaborations"),
   ("aggregates", "connection_recommendations"),
   ("aggregates", "company_network_map"),
   ("aggregates", "skills_matching_scores"),
   ("aggregates", "career_path_patterns"),
   ("aggregates", "location_based_networks"),
   ("aggregates", "alumni_networks"),
   ("aggregates", "project_collaboration_graph")]

/-- `transform_neo4j_data` (transform.py lines 521-569): on any missing
required table it logs a warning and returns 0 (`true` = skipped); otherwise
it runs the six graph transform statements, abstracted as `graphSteps`. -/
def transform_neo4j_data (catalog : List (String × String))
    (graphSteps : RunStats → RunStats) (st : RunStats) : RunStats × Bool :=
  if check_tables_exist catalog transformNeo4jRequired ≠ [] then
    ({ st with warnings := st.warnings + 1 }, true)
  else (graphSteps st, false)

/-- The gate around the seven graph-aggregate steps in aggregate.py `main`
(lines 1036-1048). -/
def aggregate_graph_stage (catalog : List (String × String))
    (graphAggSteps : RunStats → RunStats) (st : RunStats) : RunStats × Bool :=
  if check_tables_exist catalog aggregateNeo4jRequired ≠ [] then
    ({ st with warnings := st.warnings + 1 }, true)
  else (graphAggSteps st, false)

/-- The exit-code computation shared by both `main`s: 0 when no error was
recorded, else 1. -/
def exit_code (st : RunStats) : Nat := if st.errors = [] then 0 else 1

/-- C9: when the schema gate reports a required graph table missing, the
graph transform stage and the graph-dependent aggregate stage are each
skipped with one warning log, the run state is otherwise untouched (in
particular no error record is appended and none of the graph statements
run), and an invocation with no other recorded errors still exits 0. -/
theorem claim_C9_schema_gate (catalog : List (String × String))
    (gs gas : RunStats → RunStats) (st st2 : RunStats) :
    (check_tables_exist catalog transformNeo4jRequired ≠ [] →
      (transform_neo4j_data catalog gs st)
          = ({ st with warnings := st.warnings + 1 }, true) ∧
      (transform_neo4j_data catalog gs st).1.errors = st.errors ∧
      (st.errors = [] → exit_code (transform_neo4j_data catalog gs st).1 = 0)) ∧
    (check_tables_exist catalog aggregateNeo4jRequired ≠ [] →
      (aggregate_graph_stage catalog gas st2)
          = ({ st2 with warnings := st2.warnings + 1 }, true) ∧
      (aggregate_graph_stage catalog gas st2).1.errors = st2.errors ∧
      (st2.errors = [] →
        exit_code (aggregate_graph_stage catalog gas st2).1 = 0)) := by
  constructor
  · intro h
    rw [transform_neo4j_data, if_pos h]
    exact ⟨rfl, rfl, fun he => by simp [exit_code, he]⟩
  · intro h
    rw [aggregate_graph_stage, if_pos h]
    exact ⟨rfl, rfl, fun he => by simp [exit_code, he]⟩

/-- C9 witness: an empty catalog (every required table missing, in
particular `staging.neo4j_relationships`, the generic edge list) with a
clean error list exits 0. -/
theorem claim_C9_witness :
    check_tables_exist [] transformNeo4jRequired ≠ [] ∧
    exit_code (transform_neo4j_data [] id ⟨[], 0, 0⟩).1 = 0 :=
  ⟨by decide,
   ((claim_C9_schema_gate [] id id ⟨[], 0, 0⟩ ⟨[], 0, 0⟩).1 (by decide)).2.2 rfl⟩

end ChemlinkAnalytics
